import Mathlib

/-! Verification of OpenDeep's RMSProp optimizer (`opendeep/optimization/rmsprop.py`)
and of the MIDI dataset shape metadata exercised by
`opendeep/data/tests/test_midi.py`.

Shallow embedding: theano tensor expressions are modelled as a symbolic
expression tree `TExpr` with an elementwise real-valued denotation `TExpr.eval`;
theano shared variables as `SharedVar` records whose `id` field models Python
object identity; `OrderedDict` as an association list with replace-or-append
assignment; `get_updates` as a state-threading recursion that returns `Except`
to model the `ValueError` raise. -/

namespace OpenDeep

/-- Symbolic theano tensor expression (elementwise), as built by
`RMSProp.get_updates`.  `var i` refers to the shared variable whose object
identity is `i`; `const` embeds Python scalars; the remaining constructors
are `+`, `*`, `T.sqr`, `T.sqrt`, `T.maximum` and `/`. -/
inductive TExpr where
  | var (id : Nat)
  | const (c : ℚ)
  | add (a b : TExpr)
  | mul (a b : TExpr)
  | sqr (a : TExpr)
  | sqrt (a : TExpr)
  | maximum (a b : TExpr)
  | div (a b : TExpr)
deriving DecidableEq

/-- Denotation of a symbolic expression at one tensor element, given an
environment assigning a real value to every shared variable.  This is the
numeric semantics theano gives to the graph that `get_updates` constructs. -/
noncomputable def TExpr.eval (env : Nat → ℝ) : TExpr → ℝ
  | .var i => env i
  | .const c => (c : ℝ)
  | .add a b => a.eval env + b.eval env
  | .mul a b => a.eval env * b.eval env
  | .sqr a => a.eval env ^ 2
  | .sqrt a => Real.sqrt (a.eval env)
  | .maximum a b => max (a.eval env) (b.eval env)
  | .div a b => a.eval env / b.eval env

/-- A theano shared variable: `id` models Python object identity (dictionaries
keyed by tensor variables hash on identity), `name` is the optional `.name`
attribute, and `value` is the flattened stored tensor (`get_value()`). -/
structure SharedVar where
  id : Nat
  name : Option String
  value : List ℚ
deriving DecidableEq

/-- `OrderedDict` assignment `d[k] = v` for dictionaries keyed by tensor
variables (identity semantics): replace the binding in place if the key is
present, otherwise append, preserving insertion order. -/
def updatesSet : List (SharedVar × TExpr) → SharedVar → TExpr → List (SharedVar × TExpr)
  | [], k, v => [(k, v)]
  | e :: es, k, v => if e.1.id == k.id then (e.1, v) :: es else e :: updatesSet es k v

/-- Dictionary lookup `d[k]` for dictionaries keyed by tensor variables
(identity semantics). -/
def updGet : List (SharedVar × TExpr) → SharedVar → Option TExpr
  | [], _ => none
  | e :: es, k => if e.1.id == k.id then some e.2 else updGet es k

/-- `OrderedDict` assignment for `self.mean_square_grads`, keyed by the
parameter name string: replace the binding in place if the key is present,
otherwise append. -/
def msGradsSet : List (String × SharedVar) → String → SharedVar → List (String × SharedVar)
  | [], k, v => [(k, v)]
  | e :: es, k, v => if e.1 == k then (e.1, v) :: es else e :: msGradsSet es k v

/-- Lookup in `self.mean_square_grads` by parameter name. -/
def msGradsGet : List (String × SharedVar) → String → Option SharedVar
  | [], _ => none
  | e :: es, k => if e.1 == k then some e.2 else msGradsGet es k

/-- `dict.get(param, 1.)` on `self.lr_scalers`, keyed by parameter identity. -/
def lrScalersGet : List (Nat × ℚ) → Nat → Option ℚ
  | [], _ => none
  | e :: es, k => if e.1 == k then some e.2 else lrScalersGet es k

/-- The attributes of an `RMSProp` instance that `get_updates` reads or
writes: `self.learning_rate`, `self.decay`, `self.max_scaling`,
`self.epsilon`, `self.lr_scalers` and `self.mean_square_grads`. -/
structure RMSPropOpt where
  learning_rate : ℚ
  decay : ℚ
  max_scaling : ℚ
  epsilon : ℚ
  lr_scalers : List (Nat × ℚ)
  mean_square_grads : List (String × SharedVar)
deriving DecidableEq

/-- The expression `self.decay * mean_square_grad + (1 - self.decay) *
T.sqr(grads[param])` built in `get_updates` (the accumulated running average
of squared gradients). -/
def new_mean_squared_grad (decay : ℚ) (mean_square_grad : SharedVar) (g : TExpr) : TExpr :=
  .add (.mul (.const decay) (.var mean_square_grad.id))
       (.mul (.const (1 - decay)) (.sqr g))

/-- The expression `T.maximum(T.sqrt(new_mean_squared_grad), self.epsilon)`
built in `get_updates` (the denominator of the parameter update). -/
def rms_grad_t (nms : TExpr) (epsilon : ℚ) : TExpr :=
  .maximum (.sqrt nms) (.const epsilon)

/-- The expression `- scaled_lr * grads[param] / rms_grad_t` built in
`get_updates`. -/
def delta_x_t (slr : ℚ) (g : TExpr) (rms : TExpr) : TExpr :=
  .div (.mul (.const (-slr)) g) rms

/-- `self.lr_scalers.get(param, 1.) * self.learning_rate` from
`get_updates`. -/
def scaled_lr (opt : RMSPropOpt) (param : SharedVar) : ℚ :=
  (lrScalersGet opt.lr_scalers param.id).getD 1 * opt.learning_rate

/-- Result of a call to `get_updates`: the returned updates dictionary (or the
raised `ValueError`), the mutated optimizer attributes, the object-allocation
counter (fresh shared variables take identities at and above it), and the
warnings logged during the call. -/
structure GUResult where
  updates : Except String (List (SharedVar × TExpr))
  opt : RMSPropOpt
  counter : Nat
  warnings : List String

/-- The warning `get_updates` logs when a parameter name is already present in
`self.mean_square_grads`. -/
def repeatWarning (pname : String) : String :=
  "Calling get_updates more than once on the gradients of " ++ pname ++
    " may make monitored values incorrect."

/-- The loop body of `RMSProp.get_updates`, iterating over the gradient
dictionary in order.  For each `param`: a fresh shared variable is created and
initialised to `param.get_value() * 0.`; `ValueError` is raised if the
parameter is unnamed (mutations made for earlier parameters persist); the
fresh variable is renamed, stored in `self.mean_square_grads` under
`param.name` (with a warning when overwriting), and the two update-rule
entries are assigned into the `updates` ordered dictionary. -/
def get_updates_go (opt : RMSPropOpt) (counter : Nat) (warns : List String)
    (updates : List (SharedVar × TExpr)) :
    List (SharedVar × TExpr) → GUResult
  | [] => ⟨.ok updates, opt, counter, warns⟩
  | (param, g) :: rest =>
    let ms0 : SharedVar := ⟨counter, none, param.value.map (fun x => x * 0)⟩
    match param.name with
    | none => ⟨.error "Model parameters must be named.", opt, counter + 1, warns⟩
    | some pname =>
      let mean_square_grad : SharedVar := { ms0 with name := some ("mean_square_grad_" ++ pname) }
      let warns' := if opt.mean_square_grads.any (fun e => e.1 == pname)
        then warns ++ [repeatWarning pname] else warns
      let opt' := { opt with
        mean_square_grads := msGradsSet opt.mean_square_grads pname mean_square_grad }
      let nms := new_mean_squared_grad opt.decay mean_square_grad g
      let slr := scaled_lr opt param
      let rms := rms_grad_t nms opt.epsilon
      let dxt := delta_x_t slr g rms
      let updates' := updatesSet (updatesSet updates mean_square_grad nms) param
        (.add (.var param.id) dxt)
      get_updates_go opt' (counter + 1) warns' updates' rest

/-- `RMSProp.get_updates(self, grads)`: `grads` is the gradient dictionary in
iteration order; `counter` is the next free object identity (every existing
Python object, in particular every parameter, has identity below it). -/
def get_updates (opt : RMSPropOpt) (counter : Nat)
    (grads : List (SharedVar × TExpr)) : GUResult :=
  get_updates_go opt counter [] [] grads

/-- The shared variable `get_updates` creates for a (named) parameter when the
allocation counter stands at `counter`: zero-initialised to
`param.get_value() * 0.` and named `mean_square_grad_` + the parameter name. -/
def msVar (counter : Nat) (param : SharedVar) : SharedVar :=
  ⟨counter, param.name.map (fun n => "mean_square_grad_" ++ n),
    param.value.map (fun x => x * 0)⟩

/-- Transcription of the claimed output shape of `get_updates` (claim side,
for refinement): for each parameter in gradient-dictionary order, the entry
for its fresh mean-square accumulator immediately followed by the entry for
the parameter itself, and nothing else. -/
def updatesSpec (opt : RMSPropOpt) (counter : Nat) :
    List (SharedVar × TExpr) → List (SharedVar × TExpr)
  | [] => []
  | (param, g) :: rest =>
    let ms := msVar counter param
    let nms := new_mean_squared_grad opt.decay ms g
    (ms, nms)
      :: (param, .add (.var param.id) (delta_x_t (scaled_lr opt param) g (rms_grad_t nms opt.epsilon)))
      :: updatesSpec opt (counter + 1) rest

/-- Keyword arguments of `RMSProp.__init__` that it forwards to the
`Optimizer` base-class constructor (all default to `None` in the source). -/
structure OptimizerArgs where
  n_epoch : Option ℚ
  batch_size : Option ℚ
  minimum_batch_size : Option ℚ
  save_frequency : Option ℚ
  early_stop_threshold : Option ℚ
  early_stop_length : Option ℚ
  learning_rate : Option ℚ
  lr_decay : Option ℚ
  lr_factor : Option ℚ
  decay : Option ℚ
  max_scaling : Option ℚ
deriving DecidableEq

/-- `RMSProp._defaults = {'decay': 0.95, 'max_scaling': 1e5}`. -/
def RMSProp_defaults : List (String × ℚ) :=
  [("decay", (0.95 : ℚ)), ("max_scaling", (1e5 : ℚ))]

/-- Lookup in a string-keyed defaults dictionary. -/
def defaultsGet : List (String × ℚ) → String → Option ℚ
  | [], _ => none
  | e :: es, k => if e.1 == k then some e.2 else defaultsGet es k

/-- Modelled from the spec: the `Optimizer` base class is not under src (only
`rmsprop.py`, which calls it, is).  Per the spec it owns training-loop
orchestration; its constructor receives the forwarded keyword arguments
together with a defaults dictionary, stores them, and resolves each training
parameter to the supplied value, falling back to the defaults dictionary when
the argument was not supplied (`None`). -/
structure OptimizerState where
  received : OptimizerArgs
  decay : ℚ
  max_scaling : ℚ
deriving DecidableEq

/-- Modelled from the spec: `Optimizer.__init__`, storing the received
arguments and resolving `decay` and `max_scaling` against the defaults
dictionary. -/
def Optimizer_init (defaults : List (String × ℚ)) (args : OptimizerArgs) :
    OptimizerState :=
  { received := args
    decay := args.decay.getD ((defaultsGet defaults "decay").getD 0)
    max_scaling := args.max_scaling.getD ((defaultsGet defaults "max_scaling").getD 0) }

/-- The state an `RMSProp` instance holds after `__init__`: the base-class
state, `self.epsilon = 1. / self.max_scaling`, and the empty
`self.mean_square_grads`. -/
structure RMSPropInit where
  base : OptimizerState
  epsilon : ℚ
  mean_square_grads : List (String × SharedVar)
deriving DecidableEq

/-- `RMSProp.__init__`: forwards every argument unchanged to the base-class
constructor together with `_defaults`, then asserts `self.max_scaling > 0.`,
sets `self.epsilon = 1. / self.max_scaling` and initialises
`self.mean_square_grads` to an empty ordered dictionary.  The failed
assertion is modelled as an error. -/
def RMSProp_init (args : OptimizerArgs) : Except String RMSPropInit :=
  let base := Optimizer_init RMSProp_defaults args
  if 0 < base.max_scaling then
    .ok ⟨base, 1 / base.max_scaling, []⟩
  else
    .error "Max_scaling needs to be > 0."

/-- The dataset splits `TRAIN`, `VALID`, `TEST` from `opendeep.data.dataset`. -/
inductive Subset where
  | TRAIN
  | VALID
  | TEST
deriving DecidableEq

/-- Modelled from the spec: the MIDI dataset classes (`MuseData`,
`Nottingham`) are not under src (only their test is).  Per the spec a dataset
exposes train/valid/test tensor handles and shape metadata: each split holds a
list of two-dimensional sequences; the split's tensor handle is their
concatenation along the first axis, and `getDataShape` reports the shape of
each sequence. -/
structure MidiDataset where
  train_sequences : List (List (List ℚ))
  valid_sequences : List (List (List ℚ))
  test_sequences : List (List (List ℚ))

/-- The list of sequences a MIDI dataset holds for a given split. -/
def MidiDataset.sequences (d : MidiDataset) : Subset → List (List (List ℚ))
  | .TRAIN => d.train_sequences
  | .VALID => d.valid_sequences
  | .TEST => d.test_sequences

/-- The split's tensor handle: the sequences concatenated along the first
axis. -/
def MidiDataset.tensor (d : MidiDataset) (s : Subset) : List (List ℚ) :=
  (d.sequences s).flatten

/-- `getDataShape`: the shape `(rows, cols)` of each sequence in the split. -/
def MidiDataset.getDataShape (d : MidiDataset) (s : Subset) : List (Nat × Nat) :=
  (d.sequences s).map (fun m => (m.length, (m.headD []).length))

lemma map_mul_zero (l : List ℚ) : l.map (fun x => x * 0) = List.replicate l.length 0 := by
  induction l with
  | nil => rfl
  | cons a l ih => simp [List.replicate_succ, ih]

lemma get_updates_go_opt (grads : List (SharedVar × TExpr)) :
    ∀ opt counter warns updates, ∃ m,
      (get_updates_go opt counter warns updates grads).opt =
        { opt with mean_square_grads := m } := by
  induction grads with
  | nil => intro opt c w u; exact ⟨opt.mean_square_grads, rfl⟩
  | cons pg rest ih =>
    intro opt c w u
    obtain ⟨param, g⟩ := pg
    cases hname : param.name with
    | none => exact ⟨opt.mean_square_grads, by simp [get_updates_go, hname]⟩
    | some pname =>
      simp only [get_updates_go, hname]
      exact ih _ _ _ _

/-- Claim C9: `get_updates` mutates no optimizer state other than
`self.mean_square_grads`: the learning rate, decay, epsilon, max_scaling and
lr_scalers attributes are unchanged by any call (and in this functional
embedding the input gradient dictionary is read, never rebuilt). -/
theorem rmsprop_get_updates_frame (opt : RMSPropOpt) (counter : Nat)
    (grads : List (SharedVar × TExpr)) :
    (get_updates opt counter grads).opt.learning_rate = opt.learning_rate ∧
    (get_updates opt counter grads).opt.decay = opt.decay ∧
    (get_updates opt counter grads).opt.epsilon = opt.epsilon ∧
    (get_updates opt counter grads).opt.max_scaling = opt.max_scaling ∧
    (get_updates opt counter grads).opt.lr_scalers = opt.lr_scalers := by
  obtain ⟨m, hm⟩ := get_updates_go_opt grads opt counter [] []
  unfold get_updates
  rw [hm]
  exact ⟨rfl, rfl, rfl, rfl, rfl⟩

/-- Claim C7: for every MIDI dataset and every split, the first dimension of
the split's tensor handle equals the sum of the leading dimensions reported by
`getDataShape` for that split. -/
theorem midi_split_first_dim (d : MidiDataset) (s : Subset) :
    (d.tensor s).length = ((d.getDataShape s).map Prod.fst).sum := by
  simp only [MidiDataset.tensor, MidiDataset.getDataShape, List.length_flatten,
    List.map_map]
  rfl

/-- Claim C6: nonnegativity of the mean-square-gradient accumulator is an
invariant of the update rule: for every decay in the interval from 0 to 1, if
the accumulator's current value is nonnegative, then the value of the
expression `decay * mean_square_grad + (1 - decay) * T.sqr(grad)` is
nonnegative, so `T.sqrt` in the update is always applied to a nonnegative
argument. -/
theorem rmsprop_mean_square_nonneg (decay : ℚ) (ms : SharedVar) (g : TExpr)
    (env : Nat → ℝ) (h0 : 0 ≤ decay) (h1 : decay ≤ 1) (hms : 0 ≤ env ms.id) :
    0 ≤ (new_mean_squared_grad decay ms g).eval env := by
  have h0' : (0:ℝ) ≤ (decay : ℝ) := by exact_mod_cast h0
  have h1' : ((decay : ℝ)) ≤ 1 := by exact_mod_cast h1
  simp only [new_mean_squared_grad, TExpr.eval]
  push_cast
  have h2 : (0:ℝ) ≤ (1 - (decay:ℝ)) * (g.eval env ^ 2) :=
    mul_nonneg (by linarith) (sq_nonneg _)
  have h3 : (0:ℝ) ≤ (decay:ℝ) * env ms.id := mul_nonneg h0' hms
  linarith

lemma updatesSet_notMem (d : List (SharedVar × TExpr)) (k : SharedVar) (v : TExpr)
    (h : ∀ e ∈ d, (e : SharedVar × TExpr).1.id ≠ k.id) :
    updatesSet d k v = d ++ [(k, v)] := by
  induction d with
  | nil => rfl
  | cons e es ih =>
    have hne : (e.1.id == k.id) = false :=
      beq_eq_false_iff_ne.mpr (h e (List.mem_cons_self e es))
    simp [updatesSet, hne, ih (fun x hx => h x (List.mem_cons_of_mem _ hx))]

lemma updatesSpec_congr (grads : List (SharedVar × TExpr)) :
    ∀ (opt : RMSPropOpt) (counter : Nat) (m : List (String × SharedVar)),
      updatesSpec { opt with mean_square_grads := m } counter grads =
        updatesSpec opt counter grads := by
  induction grads with
  | nil => intro opt c m; rfl
  | cons pg rest ih =>
    intro opt c m
    obtain ⟨param, g⟩ := pg
    simp only [updatesSpec]
    rw [ih]
    rfl

lemma updatesSpec_length (grads : List (SharedVar × TExpr)) :
    ∀ (opt : RMSPropOpt) (counter : Nat),
      (updatesSpec opt counter grads).length = 2 * grads.length := by
  induction grads with
  | nil => intro opt c; rfl
  | cons pg rest ih =>
    intro opt c
    obtain ⟨param, g⟩ := pg
    simp only [updatesSpec, List.length_cons, ih, List.length_cons]
    omega

lemma go_updates_ok (grads : List (SharedVar × TExpr)) :
    ∀ (opt : RMSPropOpt) (counter : Nat) (warns : List String)
      (updates : List (SharedVar × TExpr)),
      (∀ pg ∈ grads, (pg : SharedVar × TExpr).1.name.isSome) →
      ((grads.map fun pg => pg.1.id).Nodup) →
      (∀ pg ∈ grads, (pg : SharedVar × TExpr).1.id < counter) →
      (∀ e ∈ updates, (e : SharedVar × TExpr).1.id < counter) →
      (∀ e ∈ updates, ∀ pg ∈ grads, (e : SharedVar × TExpr).1.id ≠ (pg : SharedVar × TExpr).1.id) →
      (get_updates_go opt counter warns updates grads).updates =
        .ok (updates ++ updatesSpec opt counter grads) := by
  induction grads with
  | nil => intro opt c w u _ _ _ _ _; simp [get_updates_go, updatesSpec]
  | cons pg rest ih =>
    rintro opt c w u named nodup pbelow ubelow unotin
    obtain ⟨param, g⟩ := pg
    obtain ⟨pname, hname⟩ : ∃ p, param.name = some p :=
      Option.isSome_iff_exists.mp (named (param, g) (List.mem_cons_self _ _))
    have hpc : param.id < c := pbelow (param, g) (List.mem_cons_self _ _)
    simp only [get_updates_go, hname]
    set msv : SharedVar :=
      ⟨c, some ("mean_square_grad_" ++ pname), param.value.map (fun x => x * 0)⟩ with hmsv
    set nmsv : TExpr := new_mean_squared_grad opt.decay msv g with hnmsv
    set updv : TExpr :=
      TExpr.add (TExpr.var param.id)
        (delta_x_t (scaled_lr opt param) g (rms_grad_t nmsv opt.epsilon)) with hupdv
    have hmsvid : msv.id = c := by rw [hmsv]
    have hA : ∀ e ∈ u, (e : SharedVar × TExpr).1.id ≠ msv.id := by
      intro e he
      have := ubelow e he
      omega
    have hB : ∀ e ∈ u ++ [(msv, nmsv)], (e : SharedVar × TExpr).1.id ≠ param.id := by
      intro e he
      rcases List.mem_append.mp he with h | h
      · exact unotin e h (param, g) (List.mem_cons_self _ _)
      · rcases List.mem_singleton.mp h with rfl
        show msv.id ≠ param.id
        omega
    rw [updatesSet_notMem u msv nmsv hA, updatesSet_notMem (u ++ [(msv, nmsv)]) param updv hB]
    have hnamed' : ∀ pg ∈ rest, (pg : SharedVar × TExpr).1.name.isSome :=
      fun q hq => named q (List.mem_cons_of_mem _ hq)
    rw [List.map_cons] at nodup
    have hnodup' := (List.nodup_cons.mp nodup).2
    have hnotin := (List.nodup_cons.mp nodup).1
    have hpbelow' : ∀ pg ∈ rest, (pg : SharedVar × TExpr).1.id < c + 1 :=
      fun q hq => Nat.lt_succ_of_lt (pbelow q (List.mem_cons_of_mem _ hq))
    have hubelow' : ∀ e ∈ (u ++ [(msv, nmsv)]) ++ [(param, updv)],
        (e : SharedVar × TExpr).1.id < c + 1 := by
      intro e he
      rcases List.mem_append.mp he with h | h
      · rcases List.mem_append.mp h with h' | h'
        · exact Nat.lt_succ_of_lt (ubelow e h')
        · rcases List.mem_singleton.mp h' with rfl
          show msv.id < c + 1
          omega
      · rcases List.mem_singleton.mp h with rfl
        show param.id < c + 1
        omega
    have hunotin' : ∀ e ∈ (u ++ [(msv, nmsv)]) ++ [(param, updv)],
        ∀ pg ∈ rest, (e : SharedVar × TExpr).1.id ≠ (pg : SharedVar × TExpr).1.id := by
      intro e he q hq
      rcases List.mem_append.mp he with h | h
      · rcases List.mem_append.mp h with h' | h'
        · exact unotin e h' q (List.mem_cons_of_mem _ hq)
        · rcases List.mem_singleton.mp h' with rfl
          have hqc : (q : SharedVar × TExpr).1.id < c := pbelow q (List.mem_cons_of_mem _ hq)
          show msv.id ≠ (q : SharedVar × TExpr).1.id
          omega
      · rcases List.mem_singleton.mp h with rfl
        show param.id ≠ (q : SharedVar × TExpr).1.id
        intro hcontra
        exact hnotin (by
          rw [hcontra]
          exact List.mem_map.mpr ⟨q, hq, rfl⟩)
    rw [ih _ (c + 1) _ _ hnamed' hnodup' hpbelow' hubelow' hunotin']
    rw [updatesSpec_congr]
    simp only [updatesSpec]
    have hmsVar : msVar c param = msv := by
      simp [msVar, hname, hmsv]
    rw [hmsVar]
    simp [List.append_assoc, hnmsv, hupdv]

lemma updatesSpec_lookup_param (pre : List (SharedVar × TExpr)) :
    ∀ (opt : RMSPropOpt) (counter : Nat) (param : SharedVar) (g : TExpr)
      (rest : List (SharedVar × TExpr)),
      (((pre ++ (param, g) :: rest).map fun pg => pg.1.id).Nodup) →
      (∀ pg ∈ pre ++ (param, g) :: rest, (pg : SharedVar × TExpr).1.id < counter) →
      updGet (updatesSpec opt counter (pre ++ (param, g) :: rest)) param =
        some (.add (.var param.id)
          (delta_x_t (scaled_lr opt param) g
            (rms_grad_t (new_mean_squared_grad opt.decay (msVar (counter + pre.length) param) g)
              opt.epsilon))) := by
  induction pre with
  | nil =>
    intro opt c param g rest hnodup hbelow
    have hpc : param.id < c := hbelow (param, g) (by simp)
    have h1 : ((msVar c param).id == param.id) = false :=
      beq_eq_false_iff_ne.mpr (by simp only [msVar]; omega)
    simp [updatesSpec, updGet, h1]
  | cons q pre' ih =>
    intro opt c param g rest hnodup hbelow
    obtain ⟨qv, qg⟩ := q
    have hpc : param.id < c := hbelow (param, g) (by simp)
    have hqne : qv.id ≠ param.id := by
      rw [List.cons_append, List.map_cons] at hnodup
      have hnm := (List.nodup_cons.mp hnodup).1
      intro hcontra
      exact hnm (hcontra ▸ List.mem_map.mpr ⟨(param, g), by simp, rfl⟩)
    have h1 : ((msVar c qv).id == param.id) = false :=
      beq_eq_false_iff_ne.mpr (by simp only [msVar]; omega)
    have h2 : (qv.id == param.id) = false := beq_eq_false_iff_ne.mpr hqne
    simp only [List.cons_append, updatesSpec, updGet, h1, h2, Bool.false_eq_true,
      if_false, List.length_cons]
    have harith : c + (pre'.length + 1) = (c + 1) + pre'.length := by omega
    rw [harith]
    refine ih opt (c + 1) param g rest ?_ ?_
    · rw [List.cons_append, List.map_cons] at hnodup
      exact (List.nodup_cons.mp hnodup).2
    · intro pg hpg
      exact Nat.lt_succ_of_lt (hbelow pg (List.mem_cons_of_mem _ hpg))

lemma updatesSpec_lookup_ms (pre : List (SharedVar × TExpr)) :
    ∀ (opt : RMSPropOpt) (counter : Nat) (param : SharedVar) (g : TExpr)
      (rest : List (SharedVar × TExpr)),
      (∀ pg ∈ pre ++ (param, g) :: rest, (pg : SharedVar × TExpr).1.id < counter) →
      updGet (updatesSpec opt counter (pre ++ (param, g) :: rest))
          (msVar (counter + pre.length) param) =
        some (new_mean_squared_grad opt.decay (msVar (counter + pre.length) param) g) := by
  induction pre with
  | nil =>
    intro opt c param g rest hbelow
    simp [updatesSpec, updGet, msVar]
  | cons q pre' ih =>
    intro opt c param g rest hbelow
    obtain ⟨qv, qg⟩ := q
    have hqc : qv.id < c := hbelow (qv, qg) (by simp)
    simp only [List.cons_append, List.length_cons]
    have harith : c + (pre'.length + 1) = (c + 1) + pre'.length := by omega
    rw [harith]
    have h1 : ((msVar c qv).id == (msVar ((c + 1) + pre'.length) param).id) = false :=
      beq_eq_false_iff_ne.mpr (by simp only [msVar]; omega)
    have h2 : (qv.id == (msVar ((c + 1) + pre'.length) param).id) = false :=
      beq_eq_false_iff_ne.mpr (by simp only [msVar]; omega)
    simp only [updatesSpec, updGet, h1, h2, Bool.false_eq_true, if_false]
    refine ih opt (c + 1) param g rest ?_
    intro pg hpg
    exact Nat.lt_succ_of_lt (hbelow pg (List.mem_cons_of_mem _ hpg))

/-- Claim C4: for a gradient dictionary with n named parameters (distinct
objects, all allocated before the call), `get_updates` returns an ordered
mapping containing exactly 2n entries: for each parameter, in iteration
order, its fresh mean-square accumulator mapped to the new running average,
immediately followed by the parameter mapped to its updated value, and no
other entries. -/
theorem rmsprop_updates_shape (opt : RMSPropOpt) (counter : Nat)
    (grads : List (SharedVar × TExpr))
    (hnamed : ∀ pg ∈ grads, (pg : SharedVar × TExpr).1.name.isSome)
    (hnodup : (grads.map fun pg => pg.1.id).Nodup)
    (hbelow : ∀ pg ∈ grads, (pg : SharedVar × TExpr).1.id < counter) :
    (get_updates opt counter grads).updates = .ok (updatesSpec opt counter grads) ∧
    (updatesSpec opt counter grads).length = 2 * grads.length := by
  constructor
  · simpa [get_updates] using
      go_updates_ok grads opt counter [] [] hnamed hnodup hbelow (by simp) (by simp)
  · exact updatesSpec_length grads opt counter

/-- Claim C1: `get_updates` assigns each parameter `p` the next value
`p + delta` where `delta` is minus the scaled learning rate
`lr_scalers.get(p, 1) * learning_rate` times `grads[p]`, divided by
`max(sqrt(decay * ms_p + (1 - decay) * grads[p]^2), epsilon)` with `ms_p`
the parameter's fresh running mean-square-gradient accumulator. -/
theorem rmsprop_param_update_formula (opt : RMSPropOpt) (counter : Nat)
    (grads pre : List (SharedVar × TExpr)) (param : SharedVar) (g : TExpr)
    (rest : List (SharedVar × TExpr))
    (hsplit : grads = pre ++ (param, g) :: rest)
    (hnamed : ∀ pg ∈ grads, (pg : SharedVar × TExpr).1.name.isSome)
    (hnodup : (grads.map fun pg => pg.1.id).Nodup)
    (hbelow : ∀ pg ∈ grads, (pg : SharedVar × TExpr).1.id < counter) :
    ∃ l, (get_updates opt counter grads).updates = .ok l ∧
      updGet l param = some (.add (.var param.id)
        (delta_x_t (scaled_lr opt param) g
          (rms_grad_t (new_mean_squared_grad opt.decay (msVar (counter + pre.length) param) g)
            opt.epsilon))) := by
  subst hsplit
  refine ⟨updatesSpec opt counter (pre ++ (param, g) :: rest), ?_, ?_⟩
  · simpa [get_updates] using
      go_updates_ok _ opt counter [] [] hnamed hnodup hbelow (by simp) (by simp)
  · exact updatesSpec_lookup_param pre opt counter param g rest hnodup hbelow

/-- Claim C2: for every parameter in the gradient dictionary, `get_updates`
maps the parameter's fresh mean-square accumulator variable to the running
average `decay * ms + (1 - decay) * grads[p]^2`. -/
theorem rmsprop_accumulator_update_formula (opt : RMSPropOpt) (counter : Nat)
    (grads pre : List (SharedVar × TExpr)) (param : SharedVar) (g : TExpr)
    (rest : List (SharedVar × TExpr))
    (hsplit : grads = pre ++ (param, g) :: rest)
    (hnamed : ∀ pg ∈ grads, (pg : SharedVar × TExpr).1.name.isSome)
    (hnodup : (grads.map fun pg => pg.1.id).Nodup)
    (hbelow : ∀ pg ∈ grads, (pg : SharedVar × TExpr).1.id < counter) :
    ∃ l, (get_updates opt counter grads).updates = .ok l ∧
      updGet l (msVar (counter + pre.length) param) =
        some (new_mean_squared_grad opt.decay (msVar (counter + pre.length) param) g) := by
  subst hsplit
  refine ⟨updatesSpec opt counter (pre ++ (param, g) :: rest), ?_, ?_⟩
  · simpa [get_updates] using
      go_updates_ok _ opt counter [] [] hnamed hnodup hbelow (by simp) (by simp)
  · exact updatesSpec_lookup_ms pre opt counter param g rest hbelow

/-- Fixture optimizer state used by the concrete witnesses. -/
def optW : RMSPropOpt := ⟨1, 1/2, 100, 1/100, [], []⟩

/-- Fixture parameter used by the concrete witnesses. -/
def pW : SharedVar := ⟨0, some "w", [1, 2]⟩

/-- Fixture gradient dictionary used by the concrete witnesses. -/
def gradsW : List (SharedVar × TExpr) := [(pW, TExpr.const 3)]

/-- Witness for C4 at a concrete input. -/
theorem rmsprop_updates_shape_witness :
    (∀ pg ∈ gradsW, (pg : SharedVar × TExpr).1.name.isSome) ∧
    ((gradsW.map fun pg => pg.1.id).Nodup) ∧
    (∀ pg ∈ gradsW, (pg : SharedVar × TExpr).1.id < 10) ∧
    ((get_updates optW 10 gradsW).updates = .ok (updatesSpec optW 10 gradsW) ∧
      (updatesSpec optW 10 gradsW).length = 2 * gradsW.length) :=
  ⟨by decide, by decide, by decide,
    rmsprop_updates_shape optW 10 gradsW (by decide) (by decide) (by decide)⟩

/-- Witness for C1 at a concrete input. -/
theorem rmsprop_param_update_formula_witness :
    gradsW = [] ++ (pW, TExpr.const 3) :: [] ∧
    ∃ l, (get_updates optW 10 gradsW).updates = .ok l ∧
      updGet l pW = some (.add (.var pW.id)
        (delta_x_t (scaled_lr optW pW) (TExpr.const 3)
          (rms_grad_t (new_mean_squared_grad optW.decay (msVar (10 + List.length ([] : List (SharedVar × TExpr))) pW) (TExpr.const 3))
            optW.epsilon))) :=
  ⟨rfl, rmsprop_param_update_formula optW 10 gradsW [] pW (TExpr.const 3) [] rfl
    (by decide) (by decide) (by decide)⟩

/-- Witness for C2 at a concrete input. -/
theorem rmsprop_accumulator_update_formula_witness :
    gradsW = [] ++ (pW, TExpr.const 3) :: [] ∧
    ∃ l, (get_updates optW 10 gradsW).updates = .ok l ∧
      updGet l (msVar (10 + List.length ([] : List (SharedVar × TExpr))) pW) =
        some (new_mean_squared_grad optW.decay
          (msVar (10 + List.length ([] : List (SharedVar × TExpr))) pW) (TExpr.const 3)) :=
  ⟨rfl, rmsprop_accumulator_update_formula optW 10 gradsW [] pW (TExpr.const 3) [] rfl
    (by decide) (by decide) (by decide)⟩

lemma go_ok_iff (grads : List (SharedVar × TExpr)) :
    ∀ (opt : RMSPropOpt) (counter : Nat) (warns : List String)
      (updates : List (SharedVar × TExpr)),
      (∃ l, (get_updates_go opt counter warns updates grads).updates = Except.ok l) ↔
        (∀ pg ∈ grads, (pg : SharedVar × TExpr).1.name ≠ none) := by
  induction grads with
  | nil => intro opt c w u; simp [get_updates_go]
  | cons pg rest ih =>
    intro opt c w u
    obtain ⟨param, g⟩ := pg
    cases hname : param.name with
    | none =>
      constructor
      · rintro ⟨l, hl⟩
        simp [get_updates_go, hname] at hl
      · intro h
        exact absurd hname (h (param, g) (List.mem_cons_self _ _))
    | some pname =>
      simp only [get_updates_go, hname]
      rw [ih]
      constructor
      · intro h q hq
        rcases List.mem_cons.mp hq with rfl | hq'
        · simp [hname]
        · exact h q hq'
      · intro h q hq
        exact h q (List.mem_cons_of_mem _ hq)

lemma go_error_iff (grads : List (SharedVar × TExpr)) :
    ∀ (opt : RMSPropOpt) (counter : Nat) (warns : List String)
      (updates : List (SharedVar × TExpr)),
      ((get_updates_go opt counter warns updates grads).updates =
          Except.error "Model parameters must be named.") ↔
        (∃ pg ∈ grads, (pg : SharedVar × TExpr).1.name = none) := by
  induction grads with
  | nil => intro opt c w u; simp [get_updates_go]
  | cons pg rest ih =>
    intro opt c w u
    obtain ⟨param, g⟩ := pg
    cases hname : param.name with
    | none =>
      constructor
      · intro _
        exact ⟨(param, g), List.mem_cons_self _ _, hname⟩
      · intro _
        simp [get_updates_go, hname]
    | some pname =>
      simp only [get_updates_go, hname]
      rw [ih]
      constructor
      · rintro ⟨q, hq, hqn⟩
        exact ⟨q, List.mem_cons_of_mem _ hq, hqn⟩
      · rintro ⟨q, hq, hqn⟩
        rcases List.mem_cons.mp hq with rfl | hq'
        · simp [hname] at hqn
        · exact ⟨q, hq', hqn⟩

lemma msGradsGet_set_self (d : List (String × SharedVar)) (k : String) (v : SharedVar) :
    msGradsGet (msGradsSet d k v) k = some v := by
  induction d with
  | nil => simp [msGradsSet, msGradsGet]
  | cons e es ih =>
    cases he : (e.1 == k) with
    | true => simp [msGradsSet, msGradsGet, he]
    | false => simp [msGradsSet, msGradsGet, he, ih]

lemma msGradsGet_set_ne (d : List (String × SharedVar)) (k : String) (v : SharedVar)
    (nm : String) (h : k ≠ nm) :
    msGradsGet (msGradsSet d k v) nm = msGradsGet d nm := by
  induction d with
  | nil =>
    have : (k == nm) = false := beq_eq_false_iff_ne.mpr h
    simp [msGradsSet, msGradsGet, this]
  | cons e es ih =>
    cases he : (e.1 == k) with
    | true =>
      have he' : e.1 = k := beq_iff_eq.mp he
      have : (e.1 == nm) = false := beq_eq_false_iff_ne.mpr (he' ▸ h)
      simp [msGradsSet, msGradsGet, he, this]
    | false =>
      cases hn : (e.1 == nm) with
      | true => simp [msGradsSet, msGradsGet, he, hn]
      | false => simp [msGradsSet, msGradsGet, he, hn, ih]

lemma msGradsGet_set_isSome (d : List (String × SharedVar)) (k : String) (v : SharedVar)
    (nm : String) (h : (msGradsGet d nm).isSome) :
    (msGradsGet (msGradsSet d k v) nm).isSome := by
  by_cases hk : k = nm
  · subst hk
    rw [msGradsGet_set_self]
    rfl
  · rw [msGradsGet_set_ne d k v nm hk]
    exact h

lemma go_msgrads_isSome (grads : List (SharedVar × TExpr)) :
    ∀ (opt : RMSPropOpt) (counter : Nat) (warns : List String)
      (updates : List (SharedVar × TExpr)) (nm : String),
      (msGradsGet opt.mean_square_grads nm).isSome →
      (msGradsGet (get_updates_go opt counter warns updates grads).opt.mean_square_grads nm).isSome := by
  induction grads with
  | nil => intro opt c w u nm h; simpa [get_updates_go] using h
  | cons pg rest ih =>
    intro opt c w u nm h
    obtain ⟨param, g⟩ := pg
    cases hname : param.name with
    | none => simpa [get_updates_go, hname] using h
    | some pname =>
      simp only [get_updates_go, hname]
      exact ih _ _ _ _ nm (msGradsGet_set_isSome _ pname _ nm h)

lemma go_msgrads_get_ne (grads : List (SharedVar × TExpr)) :
    ∀ (opt : RMSPropOpt) (counter : Nat) (warns : List String)
      (updates : List (SharedVar × TExpr)) (nm : String),
      (∀ pg ∈ grads, (pg : SharedVar × TExpr).1.name ≠ some nm) →
      msGradsGet (get_updates_go opt counter warns updates grads).opt.mean_square_grads nm =
        msGradsGet opt.mean_square_grads nm := by
  induction grads with
  | nil => intro opt c w u nm _; simp [get_updates_go]
  | cons pg rest ih =>
    intro opt c w u nm hno
    obtain ⟨param, g⟩ := pg
    cases hname : param.name with
    | none => simp [get_updates_go, hname]
    | some pname =>
      have hpn : pname ≠ nm := by
        intro hcontra
        exact hno (param, g) (List.mem_cons_self _ _) (by rw [hname, hcontra])
      simp only [get_updates_go, hname]
      rw [ih _ _ _ _ nm (fun q hq => hno q (List.mem_cons_of_mem _ hq))]
      exact msGradsGet_set_ne _ pname _ nm hpn

lemma go_pre_stored (pre : List (SharedVar × TExpr)) :
    ∀ (opt : RMSPropOpt) (counter : Nat) (warns : List String)
      (updates tail : List (SharedVar × TExpr)),
      (∀ pg ∈ pre, (pg : SharedVar × TExpr).1.name.isSome) →
      ∀ qg ∈ pre, ∀ nm, (qg : SharedVar × TExpr).1.name = some nm →
        (msGradsGet (get_updates_go opt counter warns updates (pre ++ tail)).opt.mean_square_grads
          nm).isSome := by
  induction pre with
  | nil =>
    intro opt c w u tail _ qg hqg
    simp at hqg
  | cons q pre' ih =>
    intro opt c w u tail hnamed qg hqg nm hnm
    obtain ⟨q1, q2⟩ := q
    obtain ⟨s, hs⟩ : ∃ s, q1.name = some s :=
      Option.isSome_iff_exists.mp (hnamed (q1, q2) (List.mem_cons_self _ _))
    simp only [List.cons_append, get_updates_go, hs]
    rcases List.mem_cons.mp hqg with rfl | hq'
    · have hsnm : s = nm := by
        rw [hs] at hnm
        exact Option.some.inj hnm
      subst hsnm
      apply go_msgrads_isSome
      show (msGradsGet (msGradsSet opt.mean_square_grads s _) s).isSome
      rw [msGradsGet_set_self]
      rfl
    · exact ih _ (c + 1) _ _ tail (fun p hp => hnamed p (List.mem_cons_of_mem _ hp)) qg hq' nm hnm

/-- Claim C5: `get_updates` raises `ValueError` exactly when some parameter in
the gradient dictionary is unnamed; when every parameter is named it returns
normally; and when the unnamed parameter is not first, the accumulators of the
earlier (named) parameters have already been stored in
`self.mean_square_grads` before the exception, so the failure is not atomic. -/
theorem rmsprop_unnamed_param_error (opt : RMSPropOpt) (counter : Nat)
    (grads : List (SharedVar × TExpr)) :
    ((∃ l, (get_updates opt counter grads).updates = Except.ok l) ↔
      (∀ pg ∈ grads, (pg : SharedVar × TExpr).1.name ≠ none)) ∧
    (((get_updates opt counter grads).updates =
        Except.error "Model parameters must be named.") ↔
      (∃ pg ∈ grads, (pg : SharedVar × TExpr).1.name = none)) ∧
    (∀ pre bad g rest, grads = pre ++ (bad, g) :: rest → bad.name = none →
      (∀ qg ∈ pre, (qg : SharedVar × TExpr).1.name.isSome) →
      ∀ qg ∈ pre, ∀ nm, (qg : SharedVar × TExpr).1.name = some nm →
        (msGradsGet (get_updates opt counter grads).opt.mean_square_grads nm).isSome) := by
  refine ⟨go_ok_iff grads opt counter [] [], go_error_iff grads opt counter [] [], ?_⟩
  intro pre bad g rest hsplit _ hnamed qg hqg nm hnm
  subst hsplit
  exact go_pre_stored pre opt counter [] [] ((bad, g) :: rest) hnamed qg hqg nm hnm

/-- Fixture gradient dictionary with an unnamed second parameter. -/
def gradsBad : List (SharedVar × TExpr) :=
  [(pW, TExpr.const 3), (⟨1, none, [7]⟩, TExpr.const 4)]

/-- Witness for C5 at a concrete input. -/
theorem rmsprop_unnamed_param_error_witness :
    ((get_updates optW 10 gradsBad).updates =
        Except.error "Model parameters must be named." ↔
      (∃ pg ∈ gradsBad, (pg : SharedVar × TExpr).1.name = none)) ∧
    (msGradsGet (get_updates optW 10 gradsBad).opt.mean_square_grads "w").isSome :=
  ⟨(rmsprop_unnamed_param_error optW 10 gradsBad).2.1,
    (rmsprop_unnamed_param_error optW 10 gradsBad).2.2 [(pW, TExpr.const 3)]
      ⟨1, none, [7]⟩ (TExpr.const 4) [] rfl rfl (by decide) (pW, TExpr.const 3)
      (List.mem_cons_self _ _) "w" rfl⟩

lemma go_msgrads_lookup (pre : List (SharedVar × TExpr)) :
    ∀ (opt : RMSPropOpt) (counter : Nat) (warns : List String)
      (updates : List (SharedVar × TExpr)) (param : SharedVar) (g : TExpr)
      (rest : List (SharedVar × TExpr)) (pname : String),
      (∀ pg ∈ pre, (pg : SharedVar × TExpr).1.name.isSome) →
      param.name = some pname →
      (∀ qg ∈ rest, (qg : SharedVar × TExpr).1.name ≠ some pname) →
      msGradsGet
          (get_updates_go opt counter warns updates (pre ++ (param, g) :: rest)).opt.mean_square_grads
          pname =
        some (msVar (counter + pre.length) param) := by
  induction pre with
  | nil =>
    intro opt c w u param g rest pname _ hname hrest
    simp only [List.nil_append, get_updates_go, hname]
    rw [go_msgrads_get_ne rest _ _ _ _ pname hrest]
    show msGradsGet (msGradsSet opt.mean_square_grads pname _) pname = _
    rw [msGradsGet_set_self]
    simp [msVar, hname]
  | cons q pre' ih =>
    intro opt c w u param g rest pname hnamed hname hrest
    obtain ⟨q1, q2⟩ := q
    obtain ⟨s, hs⟩ : ∃ s, q1.name = some s :=
      Option.isSome_iff_exists.mp (hnamed (q1, q2) (List.mem_cons_self _ _))
    simp only [List.cons_append, get_updates_go, hs, List.length_cons]
    have harith : c + (pre'.length + 1) = (c + 1) + pre'.length := by omega
    rw [harith]
    exact ih _ (c + 1) _ _ param g rest pname
      (fun p hp => hnamed p (List.mem_cons_of_mem _ hp)) hname hrest

lemma go_warns_mem (grads : List (SharedVar × TExpr)) :
    ∀ (opt : RMSPropOpt) (counter : Nat) (warns : List String)
      (updates : List (SharedVar × TExpr)) (x : String),
      x ∈ warns → x ∈ (get_updates_go opt counter warns updates grads).warnings := by
  induction grads with
  | nil => intro opt c w u x hx; simpa [get_updates_go] using hx
  | cons pg rest ih =>
    intro opt c w u x hx
    obtain ⟨param, g⟩ := pg
    cases hname : param.name with
    | none => simpa [get_updates_go, hname] using hx
    | some pname =>
      simp only [get_updates_go, hname]
      apply ih
      cases hw : opt.mean_square_grads.any (fun e => e.1 == pname) with
      | true => simp [hw, hx]
      | false => simpa [hw] using hx

lemma msGradsGet_isSome_any (d : List (String × SharedVar)) (nm : String) :
    (msGradsGet d nm).isSome = d.any (fun e => e.1 == nm) := by
  induction d with
  | nil => rfl
  | cons e es ih =>
    cases he : (e.1 == nm) with
    | true => simp [msGradsGet, he]
    | false => simp [msGradsGet, he, ih]

lemma go_warning_emitted (pre : List (SharedVar × TExpr)) :
    ∀ (opt : RMSPropOpt) (counter : Nat) (warns : List String)
      (updates : List (SharedVar × TExpr)) (param : SharedVar) (g : TExpr)
      (rest : List (SharedVar × TExpr)) (pname : String),
      (∀ pg ∈ pre, (pg : SharedVar × TExpr).1.name.isSome) →
      param.name = some pname →
      (msGradsGet opt.mean_square_grads pname).isSome →
      repeatWarning pname ∈
        (get_updates_go opt counter warns updates (pre ++ (param, g) :: rest)).warnings := by
  induction pre with
  | nil =>
    intro opt c w u param g rest pname _ hname hsome
    have hw : opt.mean_square_grads.any (fun e => e.1 == pname) = true := by
      rw [← msGradsGet_isSome_any]
      exact hsome
    simp only [List.nil_append, get_updates_go, hname, hw, if_true]
    apply go_warns_mem
    simp
  | cons q pre' ih =>
    intro opt c w u param g rest pname hnamed hname hsome
    obtain ⟨q1, q2⟩ := q
    obtain ⟨s, hs⟩ : ∃ s, q1.name = some s :=
      Option.isSome_iff_exists.mp (hnamed (q1, q2) (List.mem_cons_self _ _))
    simp only [List.cons_append, get_updates_go, hs]
    exact ih _ (c + 1) _ _ param g rest pname
      (fun p hp => hnamed p (List.mem_cons_of_mem _ hp)) hname
      (msGradsGet_set_isSome _ s _ pname hsome)

/-- Claim C10: on every call to `get_updates`, each named parameter's
mean-square accumulator is a freshly created shared variable (identity at or
above the allocation counter), zero-initialised to the shape of the
parameter's current value via `param.get_value() * 0.`, named
`mean_square_grad_` + the parameter name, and stored in
`self.mean_square_grads` under the parameter name, overwriting (with a logged
warning) any accumulator stored for that name by a previous call. -/
theorem rmsprop_fresh_accumulator (opt : RMSPropOpt) (counter : Nat)
    (grads pre : List (SharedVar × TExpr)) (param : SharedVar) (g : TExpr)
    (rest : List (SharedVar × TExpr)) (pname : String)
    (hsplit : grads = pre ++ (param, g) :: rest)
    (hnamed : ∀ pg ∈ grads, (pg : SharedVar × TExpr).1.name.isSome)
    (hname : param.name = some pname)
    (hlast : ∀ qg ∈ rest, (qg : SharedVar × TExpr).1.name ≠ some pname) :
    msGradsGet (get_updates opt counter grads).opt.mean_square_grads pname =
      some (msVar (counter + pre.length) param) ∧
    (msVar (counter + pre.length) param).value = param.value.map (fun x => x * 0) ∧
    (msVar (counter + pre.length) param).value = List.replicate param.value.length 0 ∧
    (msVar (counter + pre.length) param).name = some ("mean_square_grad_" ++ pname) ∧
    counter ≤ (msVar (counter + pre.length) param).id ∧
    ((msGradsGet opt.mean_square_grads pname).isSome →
      repeatWarning pname ∈ (get_updates opt counter grads).warnings) := by
  subst hsplit
  refine ⟨?_, rfl, map_mul_zero param.value, ?_, ?_, ?_⟩
  · exact go_msgrads_lookup pre opt counter [] [] param g rest pname
      (fun p hp => hnamed p (List.mem_append_left _ hp)) hname hlast
  · simp [msVar, hname]
  · show counter ≤ counter + pre.length
    omega
  · intro hsome
    exact go_warning_emitted pre opt counter [] [] param g rest pname
      (fun p hp => hnamed p (List.mem_append_left _ hp)) hname hsome

/-- Fixture optimizer state that already holds an accumulator for `w`. -/
def optW2 : RMSPropOpt := { optW with mean_square_grads := [("w", pW)] }

/-- Witness for C10 at a concrete input. -/
theorem rmsprop_fresh_accumulator_witness :
    msGradsGet (get_updates optW2 10 gradsW).opt.mean_square_grads "w" =
      some (msVar (10 + List.length ([] : List (SharedVar × TExpr))) pW) ∧
    (msVar (10 + List.length ([] : List (SharedVar × TExpr))) pW).value =
      pW.value.map (fun x => x * 0) ∧
    (msVar (10 + List.length ([] : List (SharedVar × TExpr))) pW).value =
      List.replicate pW.value.length 0 ∧
    (msVar (10 + List.length ([] : List (SharedVar × TExpr))) pW).name =
      some ("mean_square_grad_" ++ "w") ∧
    10 ≤ (msVar (10 + List.length ([] : List (SharedVar × TExpr))) pW).id ∧
    ((msGradsGet optW2.mean_square_grads "w").isSome →
      repeatWarning "w" ∈ (get_updates optW2 10 gradsW).warnings) :=
  rmsprop_fresh_accumulator optW2 10 gradsW [] pW (TExpr.const 3) [] "w" rfl
    (by decide) rfl (by decide)

/-- Witness for C6 at a concrete input. -/
theorem rmsprop_mean_square_nonneg_witness :
    (0:ℚ) ≤ 1/2 ∧ (1/2:ℚ) ≤ 1 ∧ (0:ℝ) ≤ (fun _ : Nat => (0:ℝ)) (SharedVar.id ⟨0, some "w", [1]⟩) ∧
    0 ≤ (new_mean_squared_grad (1/2) ⟨0, some "w", [1]⟩ (TExpr.const 1)).eval
        (fun _ => (0:ℝ)) :=
  ⟨by norm_num, by norm_num, le_refl 0,
    rmsprop_mean_square_nonneg (1/2) ⟨0, some "w", [1]⟩ (TExpr.const 1)
      (fun _ => (0:ℝ)) (by norm_num) (by norm_num) (le_refl 0)⟩

/-- Claim C3: under the constructor precondition `max_scaling > 0` (enforced
by assertion), `epsilon = 1 / max_scaling` is strictly positive, and for every
expression and environment the update's denominator
`max(sqrt(new_mean_squared_grad), epsilon)` is bounded below by `epsilon`, so
the division in the parameter update is never by zero, and the per-element
gradient scaling coefficient `1 / denominator` never exceeds `max_scaling`. -/
theorem rmsprop_epsilon_bounds_denominator (args : OptimizerArgs) :
    (0 < (Optimizer_init RMSProp_defaults args).max_scaling ↔
      ∃ st, RMSProp_init args = .ok st) ∧
    ∀ st, RMSProp_init args = .ok st →
      st.epsilon = 1 / st.base.max_scaling ∧
      0 < st.epsilon ∧
      ∀ (e : TExpr) (env : Nat → ℝ),
        (st.epsilon : ℝ) ≤ (rms_grad_t e st.epsilon).eval env ∧
        (rms_grad_t e st.epsilon).eval env ≠ 0 ∧
        1 / (rms_grad_t e st.epsilon).eval env ≤ (st.base.max_scaling : ℝ) := by
  constructor
  · constructor
    · intro h
      exact ⟨⟨Optimizer_init RMSProp_defaults args,
        1 / (Optimizer_init RMSProp_defaults args).max_scaling, []⟩,
        by simp only [RMSProp_init, if_pos h]⟩
    · rintro ⟨st, hst⟩
      by_contra h
      simp only [RMSProp_init, if_neg h] at hst
      exact Except.noConfusion hst
  · intro st hst
    have hpos : 0 < (Optimizer_init RMSProp_defaults args).max_scaling := by
      by_contra h
      simp only [RMSProp_init, if_neg h] at hst
      exact Except.noConfusion hst
    have hstv : st = ⟨Optimizer_init RMSProp_defaults args,
        1 / (Optimizer_init RMSProp_defaults args).max_scaling, []⟩ := by
      simp only [RMSProp_init, if_pos hpos, Except.ok.injEq] at hst
      exact hst.symm
    subst hstv
    set m : ℚ := (Optimizer_init RMSProp_defaults args).max_scaling with hm
    have hεpos : (0 : ℚ) < 1 / m := one_div_pos.mpr hpos
    refine ⟨rfl, hεpos, ?_⟩
    intro e env
    have heval : (rms_grad_t e (1 / m)).eval env =
        max (Real.sqrt (e.eval env)) (((1 / m : ℚ) : ℝ)) := by
      simp [rms_grad_t, TExpr.eval]
    have hcast : (((1 / m : ℚ)) : ℝ) = 1 / (m : ℝ) := by push_cast; ring
    have hmpos : (0 : ℝ) < (m : ℝ) := by exact_mod_cast hpos
    have hεpos' : (0 : ℝ) < ((1 / m : ℚ) : ℝ) := by exact_mod_cast hεpos
    have hlb : (((1 / m : ℚ)) : ℝ) ≤ (rms_grad_t e (1 / m)).eval env := by
      rw [heval]
      exact le_max_right _ _
    refine ⟨hlb, ?_, ?_⟩
    · exact ne_of_gt (lt_of_lt_of_le hεpos' hlb)
    · have h1 : 1 / (rms_grad_t e (1 / m)).eval env ≤ 1 / (((1 / m : ℚ)) : ℝ) :=
        one_div_le_one_div_of_le hεpos' hlb
      calc 1 / (rms_grad_t e (1 / m)).eval env
          ≤ 1 / (((1 / m : ℚ)) : ℝ) := h1
        _ = (m : ℝ) := by rw [hcast, one_div_one_div]

/-- Fixture constructor arguments used by the C3 and C8 witnesses. -/
def argsW : OptimizerArgs :=
  ⟨none, none, none, none, none, none, none, none, none, none, some 4⟩

/-- Fixture post-constructor state used by the C3 and C8 witnesses. -/
def stW : RMSPropInit :=
  ⟨Optimizer_init RMSProp_defaults argsW,
    1 / (Optimizer_init RMSProp_defaults argsW).max_scaling, []⟩

/-- Witness for C3 at a concrete input. -/
theorem rmsprop_epsilon_bounds_denominator_witness :
    RMSProp_init argsW = .ok stW ∧
    stW.epsilon = 1 / stW.base.max_scaling ∧
    0 < stW.epsilon ∧
    ((stW.epsilon : ℝ) ≤ (rms_grad_t (TExpr.const 0) stW.epsilon).eval (fun _ => 0) ∧
      (rms_grad_t (TExpr.const 0) stW.epsilon).eval (fun _ => 0) ≠ 0 ∧
      1 / (rms_grad_t (TExpr.const 0) stW.epsilon).eval (fun _ => 0) ≤
        (stW.base.max_scaling : ℝ)) :=
  ⟨rfl,
    ((rmsprop_epsilon_bounds_denominator argsW).2 stW rfl).1,
    ((rmsprop_epsilon_bounds_denominator argsW).2 stW rfl).2.1,
    ((rmsprop_epsilon_bounds_denominator argsW).2 stW rfl).2.2 (TExpr.const 0) (fun _ => 0)⟩

/-- Claim C8: the `RMSProp` constructor forwards every training-loop argument
(`n_epoch`, `batch_size`, `minimum_batch_size`, `save_frequency`,
`early_stop_threshold`, `early_stop_length`, `learning_rate`, `lr_decay`,
`lr_factor`), and `decay` and `max_scaling`, unchanged to the `Optimizer`
base-class constructor, which uses the defaults `decay = 0.95` and
`max_scaling = 1e5` when they are not supplied. -/
theorem rmsprop_init_forwards_args (args : OptimizerArgs) :
    (Optimizer_init RMSProp_defaults args).received = args ∧
    (Optimizer_init RMSProp_defaults args).decay = args.decay.getD (0.95 : ℚ) ∧
    (Optimizer_init RMSProp_defaults args).max_scaling = args.max_scaling.getD (1e5 : ℚ) ∧
    ∀ st, RMSProp_init args = .ok st → st.base = Optimizer_init RMSProp_defaults args := by
  refine ⟨rfl, rfl, rfl, ?_⟩
  intro st hst
  have hpos : 0 < (Optimizer_init RMSProp_defaults args).max_scaling := by
    by_contra h
    simp only [RMSProp_init, if_neg h] at hst
    exact Except.noConfusion hst
  simp only [RMSProp_init, if_pos hpos, Except.ok.injEq] at hst
  rw [← hst]

/-- Witness for C8 at a concrete input. -/
theorem rmsprop_init_forwards_args_witness :
    (Optimizer_init RMSProp_defaults argsW).received = argsW ∧
    (Optimizer_init RMSProp_defaults argsW).decay = argsW.decay.getD (0.95 : ℚ) ∧
    (Optimizer_init RMSProp_defaults argsW).max_scaling = argsW.max_scaling.getD (1e5 : ℚ) ∧
    stW.base = Optimizer_init RMSProp_defaults argsW :=
  ⟨(rmsprop_init_forwards_args argsW).1,
    (rmsprop_init_forwards_args argsW).2.1,
    (rmsprop_init_forwards_args argsW).2.2.1,
    (rmsprop_init_forwards_args argsW).2.2.2 stW rfl⟩

end OpenDeep
